import Mathlib

/-!
Shallow embedding of the Kuizmo study-companion backend (`app/data.py`,
`app/main.py`, `app/schemas.py`) and proofs about its store and handler
behaviour.

Modelling conventions:
* Python `dict`s are insertion-ordered and have unique keys by construction;
  each is embedded as an insertion-ordered `List` of records (every record
  carries its own key field, matching the source where the dict key always
  equals the record's id / `(user_id, course_id)` pair).
* Dict assignment `d[k] = x` is `insertBy`: it replaces the entry with key
  `k` in place when present, and appends otherwise.  `d.pop(k, None)` on an
  id-keyed dict is a filter on the key.
* Python machine-unbounded `int` counters are `Nat`; `answer_index` and
  submitted answers are Python `int`s that may be compared after a `ge=0`
  pydantic check, so they are embedded as `Int`.
* In-place mutation of a record found in a dict is embedded as a `map`
  that rewrites the entries with the matching key.
* Exceptions (`KeyError` on update of a missing id, FastAPI `HTTPException`)
  leave the store untouched; handler results are `Except String`.
-/

namespace Kuizmo

/-- `@dataclass Module` from `app/data.py`. -/
structure Module where
  id : Nat
  course_id : Nat
  title : String
  content : String
deriving DecidableEq

/-- `@dataclass QuizQuestion` from `app/data.py`. -/
structure QuizQuestion where
  id : Nat
  course_id : Nat
  prompt : String
  options : List String
  answer_index : Int
deriving DecidableEq

/-- `@dataclass Course` from `app/data.py`. -/
structure Course where
  id : Nat
  title : String
  description : String
  tags : List String
deriving DecidableEq

/-- `@dataclass UserProgress` from `app/data.py`; the dict key is always
`(user_id, course_id)`. -/
structure UserProgress where
  user_id : String
  course_id : Nat
  completed_module_ids : List Nat
deriving DecidableEq

/-- Python dict assignment `d[k] = x` on an insertion-ordered dict embedded
as a list: replace the entry whose key matches in place, else append. -/
def insertBy (key : α → Bool) (x : α) (l : List α) : List α :=
  if l.any key then l.map fun y => if key y then x else y else l ++ [x]

/-- The state of `class Database` from `app/data.py`: three id counters and
four insertion-ordered keyed collections. -/
structure Database where
  course_counter : Nat
  module_counter : Nat
  question_counter : Nat
  courses : List Course
  modules : List Module
  quiz_questions : List QuizQuestion
  progress_records : List UserProgress
deriving DecidableEq

/-- `Database.create_course`: pre-increment the counter, store and return the
new course.  Python `tags or []` maps `None` (and the empty list) to `[]`. -/
def Database.create_course (db : Database) (title description : String)
    (tags : Option (List String)) : Database × Course :=
  let counter := db.course_counter + 1
  let course : Course := ⟨counter, title, description, tags.getD []⟩
  ({ db with
      course_counter := counter
      courses := insertBy (fun c => c.id == counter) course db.courses },
    course)

/-- `Database.update_course`: `self.courses[course_id]` raises `KeyError`
when absent (no mutation); otherwise the fields are replaced in place. -/
def Database.update_course (db : Database) (course_id : Nat)
    (title description : String) (tags : List String) : Database :=
  { db with
      courses := db.courses.map fun c =>
        if c.id == course_id then
          { c with title := title, description := description, tags := tags }
        else c }

/-- `Database.delete_course`: pop the course, then pop every module and quiz
question whose `course_id` matches, then pop every progress record whose key
has that `course_id`.  On unique-key collections the pop loops compute these
filters. -/
def Database.delete_course (db : Database) (course_id : Nat) : Database :=
  { db with
      courses := db.courses.filter fun c => c.id != course_id
      modules := db.modules.filter fun m => m.course_id != course_id
      quiz_questions := db.quiz_questions.filter fun q => q.course_id != course_id
      progress_records := db.progress_records.filter fun p => p.course_id != course_id }

/-- `Database.create_module`: pre-increment the counter, store and return the
new module (no existence check on `course_id`). -/
def Database.create_module (db : Database) (course_id : Nat)
    (title content : String) : Database × Module :=
  let counter := db.module_counter + 1
  let m : Module := ⟨counter, course_id, title, content⟩
  ({ db with
      module_counter := counter
      modules := insertBy (fun x => x.id == counter) m db.modules },
    m)

/-- `Database.update_module`: `KeyError` when absent, in-place update
otherwise. -/
def Database.update_module (db : Database) (module_id : Nat)
    (title content : String) : Database :=
  { db with
      modules := db.modules.map fun m =>
        if m.id == module_id then { m with title := title, content := content }
        else m }

/-- `Database.delete_module`: `pop(module_id, None)`; only when a module was
actually removed, run `completed_module_ids.remove(module_id)` (remove the
first occurrence) on every progress record that contains it. -/
def Database.delete_module (db : Database) (module_id : Nat) : Database :=
  match db.modules.find? (fun m => m.id == module_id) with
  | none => db
  | some _ =>
      { db with
          modules := db.modules.filter fun m => m.id != module_id
          progress_records := db.progress_records.map fun p =>
            if module_id ∈ p.completed_module_ids then
              { p with completed_module_ids := p.completed_module_ids.erase module_id }
            else p }

/-- `Database.create_quiz_question`: pre-increment the counter, store and
return the new question (the store performs no validation). -/
def Database.create_quiz_question (db : Database) (course_id : Nat)
    (prompt : String) (options : List String) (answer_index : Int) :
    Database × QuizQuestion :=
  let counter := db.question_counter + 1
  let q : QuizQuestion := ⟨counter, course_id, prompt, options, answer_index⟩
  ({ db with
      question_counter := counter
      quiz_questions := insertBy (fun x => x.id == counter) q db.quiz_questions },
    q)

/-- `Database.update_quiz_question`: `KeyError` when absent, in-place update
otherwise. -/
def Database.update_quiz_question (db : Database) (question_id : Nat)
    (prompt : String) (options : List String) (answer_index : Int) : Database :=
  { db with
      quiz_questions := db.quiz_questions.map fun q =>
        if q.id == question_id then
          { q with prompt := prompt, options := options, answer_index := answer_index }
        else q }

/-- `Database.delete_quiz_question`: `pop(question_id, None)`. -/
def Database.delete_quiz_question (db : Database) (question_id : Nat) : Database :=
  { db with quiz_questions := db.quiz_questions.filter fun q => q.id != question_id }

/-- The dict key predicate for `progress_records`: `key == (user_id, course_id)`. -/
def progressKey (user_id : String) (course_id : Nat) (p : UserProgress) : Bool :=
  p.user_id == user_id && p.course_id == course_id

/-- `Database.record_module_completion`: look up the record for the key,
lazily insert an empty one when missing, then append `module_id` only when
not already present (in-place mutation of the stored record). -/
def Database.record_module_completion (db : Database) (user_id : String)
    (course_id module_id : Nat) : Database × UserProgress :=
  match db.progress_records.find? (progressKey user_id course_id) with
  | some progress =>
      let progress' :=
        if module_id ∈ progress.completed_module_ids then progress
        else { progress with
                completed_module_ids := progress.completed_module_ids ++ [module_id] }
      ({ db with
          progress_records := db.progress_records.map fun q =>
            if progressKey user_id course_id q then progress' else q },
        progress')
  | none =>
      let progress' : UserProgress := ⟨user_id, course_id, [module_id]⟩
      ({ db with
          progress_records :=
            insertBy (progressKey user_id course_id) progress' db.progress_records },
        progress')

/-- `Database.get_progress`: return the stored record, lazily inserting an
empty one into the store when the key is missing. -/
def Database.get_progress (db : Database) (user_id : String) (course_id : Nat) :
    Database × UserProgress :=
  match db.progress_records.find? (progressKey user_id course_id) with
  | some progress => (db, progress)
  | none =>
      let progress : UserProgress := ⟨user_id, course_id, []⟩
      ({ db with
          progress_records :=
            insertBy (progressKey user_id course_id) progress db.progress_records },
        progress)

/-- The `Database` state after `__init__` sets three zero counters and four
empty collections, before `_seed`. -/
def Database.mkEmpty : Database := ⟨0, 0, 0, [], [], [], []⟩

/-- `Database._seed`: the startup fixture — one demo course, two modules and
two quiz questions, built through the ordinary create operations. -/
def Database.seed (db0 : Database) : Database :=
  let r1 := db0.create_course "Neural Networks Primer"
    "Master the foundations of neural networks with short lessons, animations, and interactive quizzes."
    (some ["machine-learning", "ai", "beginner"])
  let r2 := r1.1.create_module r1.2.id "Perceptron Intuition"
    "Explore the history of the perceptron, how it models a linear separator, and its connection to modern neural architectures."
  let r3 := r2.1.create_module r1.2.id "Activation Functions"
    "Survey sigmoid, ReLU, and GELU activations through intuitive animations and real-world examples."
  let r4 := r3.1.create_quiz_question r1.2.id
    "Which activation function is piecewise linear?"
    ["Sigmoid", "Tanh", "ReLU", "Softmax"] 2
  let r5 := r4.1.create_quiz_question r1.2.id
    "What problem does the perceptron struggle with?"
    ["Linearly separable data", "Non-linear boundaries", "High bias", "Overfitting"] 1
  r5.1

/-- `Database.__init__`: zeroed counters, empty collections, then `_seed`. -/
def Database.init : Database := Database.mkEmpty.seed

/-- Result payload of a quiz attempt (`QuizResult` in `app/schemas.py`). -/
structure QuizResult where
  score : Nat
  total : Nat
  correct_question_ids : List Nat
deriving DecidableEq

/-- The scoring loop of the `attempt_quiz` handler in `app/main.py`:
`for question, answer in zip(questions, answers)`, counting matches and
collecting ids of correctly answered questions in question order. -/
def scoreLoop : List (QuizQuestion × Int) → Nat → List Nat → Nat × List Nat
  | [], score, ids => (score, ids)
  | (q, a) :: rest, score, ids =>
      if a == q.answer_index then scoreLoop rest (score + 1) (ids ++ [q.id])
      else scoreLoop rest score ids

/-- The `attempt_quiz` handler of `app/main.py`: 404 when the course is
absent, 400 when the course has no questions or the answer count mismatches,
otherwise the scored result over the course's questions in store order. -/
def attempt_quiz (db : Database) (course_id : Nat) (answers : List Int) :
    Except String QuizResult :=
  if db.courses.any (fun c => c.id == course_id) then
    let questions := db.quiz_questions.filter fun q => q.course_id == course_id
    if questions.isEmpty then .error "No quiz questions available"
    else if answers.length != questions.length then .error "Answer count mismatch"
    else
      let r := scoreLoop (questions.zip answers) 0 []
      .ok ⟨r.1, questions.length, r.2⟩
  else .error "Course not found"

/-- The `POST /courses/cid/quizzes` pipeline: pydantic shape validation of
`QuizQuestionCreate` (`options` has `min_length=2`, `answer_index` has
`ge=0`), then the `create_quiz_question` handler of `app/main.py`
(course-existence check, then `answer_index >= len(options)` check), then
the store call.  Every rejection happens before any store mutation, so the
original store is returned alongside the error. -/
def create_quiz_question (db : Database) (course_id : Nat) (prompt : String)
    (options : List String) (answer_index : Int) :
    Database × Except String QuizQuestion :=
  if ¬ (2 ≤ options.length ∧ 0 ≤ answer_index) then
    (db, .error "payload validation failed")
  else if ¬ db.courses.any (fun c => c.id == course_id) then
    (db, .error "Course not found")
  else if (options.length : Int) ≤ answer_index then
    (db, .error "answer_index out of range")
  else
    let r := db.create_quiz_question course_id prompt options answer_index
    (r.1, .ok r.2)

/-- The store operations of `class Database`, as an operation alphabet for
reasoning about sequences of store calls. -/
inductive Op where
  | createCourse (title description : String) (tags : Option (List String))
  | updateCourse (course_id : Nat) (title description : String) (tags : List String)
  | deleteCourse (course_id : Nat)
  | createModule (course_id : Nat) (title content : String)
  | updateModule (module_id : Nat) (title content : String)
  | deleteModule (module_id : Nat)
  | createQuestion (course_id : Nat) (prompt : String) (options : List String)
      (answer_index : Int)
  | updateQuestion (question_id : Nat) (prompt : String) (options : List String)
      (answer_index : Int)
  | deleteQuestion (question_id : Nat)
  | recordCompletion (user_id : String) (course_id module_id : Nat)
  | getProgress (user_id : String) (course_id : Nat)
deriving DecidableEq

/-- Effect of one store operation on the store state (returned entities
discarded). -/
def apply (db : Database) : Op → Database
  | .createCourse t d tags => (db.create_course t d tags).1
  | .updateCourse cid t d tags => db.update_course cid t d tags
  | .deleteCourse cid => db.delete_course cid
  | .createModule cid t c => (db.create_module cid t c).1
  | .updateModule mid t c => db.update_module mid t c
  | .deleteModule mid => db.delete_module mid
  | .createQuestion cid p o a => (db.create_quiz_question cid p o a).1
  | .updateQuestion qid p o a => db.update_quiz_question qid p o a
  | .deleteQuestion qid => db.delete_quiz_question qid
  | .recordCompletion u c m => (db.record_module_completion u c m).1
  | .getProgress u c => (db.get_progress u c).1

/-- The store state after running a sequence of store operations from the
freshly initialized (seeded) store. -/
def reachable (ops : List Op) : Database := ops.foldl apply Database.init

/-- The three entity types that own an id counter. -/
inductive EntityType where
  | course
  | module
  | question
deriving DecidableEq

/-- The id counter a given entity type uses. -/
def counterOf : EntityType → Database → Nat
  | .course, db => db.course_counter
  | .module, db => db.module_counter
  | .question, db => db.question_counter

/-- Whether an operation is a creation of the given entity type. -/
def isCreateOf : EntityType → Op → Bool
  | .course, .createCourse .. => true
  | .module, .createModule .. => true
  | .question, .createQuestion .. => true
  | _, _ => false

/-- The ids handed out to the creations of entity type `t` while running
`ops` from state `db`, in creation order (each create assigns
`counter + 1`). -/
def assignedIds (t : EntityType) (db : Database) : List Op → List Nat
  | [] => []
  | op :: ops =>
      if isCreateOf t op then
        (counterOf t db + 1) :: assignedIds t (apply db op) ops
      else assignedIds t (apply db op) ops

/-! ### Helper lemmas about the embedding -/

/-- Dict assignment always leaves the assigned record in the collection. -/
theorem mem_insertBy (key : α → Bool) (x : α) (l : List α) : x ∈ insertBy key x l := by
  unfold insertBy
  split
  case isTrue h =>
    obtain ⟨y, hy, hky⟩ := List.any_eq_true.mp h
    exact List.mem_map.mpr ⟨y, hy, by simp [hky]⟩
  case isFalse h => simp

/-- Dict assignment with a key matching no stored record is an append. -/
theorem insertBy_of_any_eq_false (key : α → Bool) (x : α) (l : List α)
    (h : l.any key = false) : insertBy key x l = l ++ [x] := by
  simp [insertBy, h]

/-- Unfolding the progress-record key predicate. -/
theorem progressKey_eq_true (u : String) (c : Nat) (p : UserProgress) :
    progressKey u c p = true ↔ p.user_id = u ∧ p.course_id = c := by
  simp [progressKey]

/-- `counterOf` after one store operation: the counter of entity type `t`
increments exactly on a creation of type `t` and is untouched otherwise. -/
theorem counterOf_apply (t : EntityType) (db : Database) (op : Op) :
    counterOf t (apply db op) =
      counterOf t db + (if isCreateOf t op then 1 else 0) := by
  cases t <;> cases op <;>
    simp only [apply, counterOf, isCreateOf, Database.create_course,
      Database.update_course, Database.delete_course, Database.create_module,
      Database.update_module, Database.delete_module,
      Database.create_quiz_question, Database.update_quiz_question,
      Database.delete_quiz_question, Database.record_module_completion,
      Database.get_progress, if_true, if_false] <;>
    first
      | rfl
      | (split <;> rfl)

/-- `find?` commutes with a map that preserves the predicate pointwise. -/
theorem find?_map_of_pred (p : α → Bool) (f : α → α) (l : List α)
    (hf : ∀ x, p (f x) = p x) : (l.map f).find? p = (l.find? p).map f := by
  induction l with
  | nil => rfl
  | cons a l ih =>
      by_cases h : p a = true
      · rw [List.map_cons, List.find?_cons_of_pos _ (by rw [hf]; exact h),
          List.find?_cons_of_pos _ h]
        rfl
      · rw [List.map_cons, List.find?_cons_of_neg _ (by rw [hf]; exact h),
          List.find?_cons_of_neg _ h, ih]

/-! ### Claim theorems -/

/-- C1: deleting a Course with id `cid` removes exactly the course with that
id, every module and quiz question whose `course_id` is `cid`, and every
progress record keyed by `cid`; everything else survives in its original
relative order, and the id counters are untouched. -/
theorem delete_course_cascade (db : Database) (cid : Nat) :
    (∀ c : Course, c ∈ (db.delete_course cid).courses ↔
        c ∈ db.courses ∧ c.id ≠ cid) ∧
    (∀ m : Module, m ∈ (db.delete_course cid).modules ↔
        m ∈ db.modules ∧ m.course_id ≠ cid) ∧
    (∀ q : QuizQuestion, q ∈ (db.delete_course cid).quiz_questions ↔
        q ∈ db.quiz_questions ∧ q.course_id ≠ cid) ∧
    (∀ p : UserProgress, p ∈ (db.delete_course cid).progress_records ↔
        p ∈ db.progress_records ∧ p.course_id ≠ cid) ∧
    (db.delete_course cid).courses.Sublist db.courses ∧
    (db.delete_course cid).modules.Sublist db.modules ∧
    (db.delete_course cid).quiz_questions.Sublist db.quiz_questions ∧
    (db.delete_course cid).progress_records.Sublist db.progress_records ∧
    (db.delete_course cid).course_counter = db.course_counter ∧
    (db.delete_course cid).module_counter = db.module_counter ∧
    (db.delete_course cid).question_counter = db.question_counter := by
  refine ⟨?_, ?_, ?_, ?_, ?_, ?_, ?_, ?_, rfl, rfl, rfl⟩ <;>
    simp [Database.delete_course, List.mem_filter, List.filter_sublist]

/-- C2 counterexample: the store-level `delete_course` is not a no-op on
every state whose course id is absent.  The store lets `create_module`
reference a nonexistent course (no FK check), and `delete_course` runs its
cascade filters unconditionally, so deleting the absent course id 5 removes
that orphan module and changes the store. -/
theorem delete_course_absent_counterexample :
    (∀ c ∈ (Database.init.create_module 5 "Extra" "Content").1.courses,
        c.id ≠ 5) ∧
    (Database.init.create_module 5 "Extra" "Content").1.delete_course 5 ≠
      (Database.init.create_module 5 "Extra" "Content").1 := by
  exact ⟨by decide, by decide⟩

/-- C2 amended: deleting a course id that is absent from the store is a
no-op provided no module, quiz question, or progress record references that
id either (the cascade filters run unconditionally); the operation itself is
a total function, so it never raises. -/
theorem delete_course_absent_noop (db : Database) (cid : Nat)
    (h1 : ∀ c ∈ db.courses, c.id ≠ cid)
    (h2 : ∀ m ∈ db.modules, m.course_id ≠ cid)
    (h3 : ∀ q ∈ db.quiz_questions, q.course_id ≠ cid)
    (h4 : ∀ p ∈ db.progress_records, p.course_id ≠ cid) :
    db.delete_course cid = db := by
  obtain ⟨cc, mc, qc, cs, ms, qs, ps⟩ := db
  simp only [Database.delete_course, Database.mk.injEq, true_and]
  refine ⟨?_, ?_, ?_, ?_⟩ <;> apply List.filter_eq_self.mpr <;>
    intro x hx <;> simp only [bne_iff_ne, ne_eq, decide_eq_true_eq]
  · exact h1 x hx
  · exact h2 x hx
  · exact h3 x hx
  · exact h4 x hx

/-- C2 witness: deleting the unreferenced absent course id 99 from the
seeded store leaves it unchanged. -/
theorem delete_course_absent_noop_witness :
    Database.init.delete_course 99 = Database.init :=
  delete_course_absent_noop Database.init 99 (by decide) (by decide)
    (by decide) (by decide)

/-- C3 counterexample: a freshly initialized store is seeded (one demo
course, two modules, two questions), so the first course created after
initialization receives id 2, not id 1 as the claim requires for N = 1. -/
theorem assigned_ids_counterexample :
    assignedIds EntityType.course Database.init
        [Op.createCourse "T" "D" none] = [2] ∧
    ([2] : List Nat) ≠ [1] := by
  exact ⟨rfl, by decide⟩

/-- C3 amended: over any operation sequence from any store state, the ids
assigned to the N successful creations of one entity type are exactly
`c+1, …, c+N` in creation order, where `c` is that type's counter at the
start (so exactly `1, …, N` from a store with a zero counter, while the
seeded store starts at 1 for courses and 2 for modules and questions);
ids are strictly increasing, never reused after interleaved deletions, and
the counter moves only on creation. -/
theorem assigned_ids_eq_range (t : EntityType) (db : Database) (ops : List Op) :
    assignedIds t db ops =
      List.range' (counterOf t db + 1) (ops.countP (isCreateOf t)) := by
  induction ops generalizing db with
  | nil => simp [assignedIds]
  | cons op ops ih =>
      by_cases h : isCreateOf t op
      · rw [assignedIds, if_pos h, ih, counterOf_apply, if_pos h,
          List.countP_cons, if_pos h, List.range'_succ]
      · rw [assignedIds, if_neg h, ih, counterOf_apply, if_neg h,
          List.countP_cons, if_neg h]
        simp

/-- C4: when module `mid` exists, deleting it rewrites every progress
record by dropping exactly the entries equal to `mid` from
`completed_module_ids` (the source removes the first occurrence, which on
the duplicate-free lists of the data model is the whole filter), keeping
all other ids in their relative order; when `mid` is absent, the store —
in particular every progress record — is untouched. -/
theorem delete_module_progress_cleanup (db : Database) (mid : Nat)
    (hnd : ∀ p ∈ db.progress_records, p.completed_module_ids.Nodup) :
    (db.modules.any (fun m => m.id == mid) = true →
       (db.delete_module mid).progress_records =
         db.progress_records.map fun p =>
           { p with completed_module_ids :=
               p.completed_module_ids.filter fun x => x != mid }) ∧
    (db.modules.any (fun m => m.id == mid) = false →
       db.delete_module mid = db) := by
  constructor
  · intro hany
    rcases hfind : db.modules.find? (fun m => m.id == mid) with _ | m
    · obtain ⟨x, hx, hpx⟩ := List.any_eq_true.mp hany
      exact absurd hpx (List.find?_eq_none.mp hfind x hx)
    · simp only [Database.delete_module, hfind]
      apply List.map_congr_left
      intro p hp
      by_cases hm : mid ∈ p.completed_module_ids
      · simp only [if_pos hm, (hnd p hp).erase_eq_filter]
      · simp only [if_neg hm]
        have : p.completed_module_ids.filter (fun x => x != mid) =
            p.completed_module_ids :=
          List.filter_eq_self.mpr fun a ha => by
            simp only [bne_iff_ne, ne_eq, decide_eq_true_eq]
            exact fun h => hm (h ▸ ha)
        exact congrArg (fun l => UserProgress.mk p.user_id p.course_id l) this.symm
  · intro hany
    rcases hfind : db.modules.find? (fun m => m.id == mid) with _ | m
    · simp [Database.delete_module, hfind]
    · have := List.find?_some hfind
      have hmem := List.mem_of_find?_eq_some hfind
      rw [List.any_eq_false] at hany
      exact absurd this (hany m hmem)

/-- C4 witness: in a store where user "ada" completed modules 1 and 2,
deleting module 1 maps the progress records through the filter that drops
id 1, and deleting the absent module id 42 from the seeded store changes
nothing. -/
theorem delete_module_progress_cleanup_witness :
    ((reachable [Op.recordCompletion "ada" 1 1,
        Op.recordCompletion "ada" 1 2]).delete_module 1).progress_records =
      (reachable [Op.recordCompletion "ada" 1 1,
        Op.recordCompletion "ada" 1 2]).progress_records.map
        (fun p => { p with completed_module_ids :=
            p.completed_module_ids.filter fun x => x != 1 }) ∧
    Database.init.delete_module 42 = Database.init :=
  ⟨(delete_module_progress_cleanup
      (reachable [Op.recordCompletion "ada" 1 1, Op.recordCompletion "ada" 1 2])
      1 (by decide)).1 (by decide),
   (delete_module_progress_cleanup Database.init 42 (by decide)).2 (by decide)⟩

/-- C6: reading progress for a user/course pair that has no stored record
never fails (the embedding is a total function) and yields the
empty-but-valid record for exactly that pair. -/
theorem get_progress_fresh_default (db : Database) (u : String) (c : Nat)
    (h : ∀ p ∈ db.progress_records, ¬(p.user_id = u ∧ p.course_id = c)) :
    (db.get_progress u c).2 = ⟨u, c, []⟩ := by
  have hf : db.progress_records.find? (progressKey u c) = none :=
    List.find?_eq_none.mpr fun p hp => by
      simpa [progressKey_eq_true] using h p hp
  simp [Database.get_progress, hf]

/-- C6 witness: the seeded store holds no record for ("ada", 1), and
reading it returns the empty record for that pair. -/
theorem get_progress_fresh_default_witness :
    (Database.init.get_progress "ada" 1).2 = ⟨"ada", 1, []⟩ :=
  get_progress_fresh_default Database.init "ada" 1 (by decide)

/-- C10: reading progress for an untouched user/course pair mutates the
visible store: the lazily created empty record is appended to
`progress_records`, so the collection afterwards contains an entry for that
key. -/
theorem get_progress_persists (db : Database) (u : String) (c : Nat)
    (h : ∀ p ∈ db.progress_records, ¬(p.user_id = u ∧ p.course_id = c)) :
    (db.get_progress u c).1.progress_records =
      db.progress_records ++ [⟨u, c, []⟩] ∧
    (⟨u, c, []⟩ : UserProgress) ∈ (db.get_progress u c).1.progress_records := by
  have hf : db.progress_records.find? (progressKey u c) = none :=
    List.find?_eq_none.mpr fun p hp => by
      simpa [progressKey_eq_true] using h p hp
  have hany : db.progress_records.any (progressKey u c) = false :=
    List.any_eq_false.mpr fun p hp => by
      simpa [progressKey_eq_true] using h p hp
  constructor
  · simp [Database.get_progress, hf, insertBy_of_any_eq_false _ _ _ hany]
  · simp only [Database.get_progress, hf]
    exact mem_insertBy _ _ _

/-- C10 witness: reading ("ada", 1) on the seeded store appends the empty
record for that key to the store. -/
theorem get_progress_persists_witness :
    (Database.init.get_progress "ada" 1).1.progress_records =
      Database.init.progress_records ++ [⟨"ada", 1, []⟩] :=
  (get_progress_persists Database.init "ada" 1 (by decide)).1

/-- C5: `record_module_completion` is idempotent after the first call — for
every store state and every user, course and module id, calling it twice in
a row produces exactly the store state and returned record of calling it
once. -/
theorem record_module_completion_idempotent (db : Database) (u : String)
    (c m : Nat) :
    (db.record_module_completion u c m).1.record_module_completion u c m =
      db.record_module_completion u c m := by
  rcases hf : db.progress_records.find? (progressKey u c) with _ | p
  case none =>
    have hall : ∀ q ∈ db.progress_records, ¬progressKey u c q = true :=
      List.find?_eq_none.mp hf
    have hany : db.progress_records.any (progressKey u c) = false :=
      List.any_eq_false.mpr hall
    have hkey : progressKey u c (⟨u, c, [m]⟩ : UserProgress) = true := by
      simp [progressKey]
    have hins : insertBy (progressKey u c) (⟨u, c, [m]⟩ : UserProgress)
        db.progress_records =
        db.progress_records ++ [(⟨u, c, [m]⟩ : UserProgress)] :=
      insertBy_of_any_eq_false _ _ _ hany
    have hf2 : (db.progress_records ++ [(⟨u, c, [m]⟩ : UserProgress)]).find?
        (progressKey u c) = some (⟨u, c, [m]⟩ : UserProgress) := by
      rw [List.find?_append, hf, List.find?_cons_of_pos _ hkey]
      rfl
    have hmap : (db.progress_records ++ [(⟨u, c, [m]⟩ : UserProgress)]).map
        (fun q => if progressKey u c q then (⟨u, c, [m]⟩ : UserProgress) else q) =
        db.progress_records ++ [(⟨u, c, [m]⟩ : UserProgress)] := by
      rw [List.map_append]
      congr 1
      · calc db.progress_records.map
              (fun q => if progressKey u c q then (⟨u, c, [m]⟩ : UserProgress) else q)
            = db.progress_records.map id :=
              List.map_congr_left fun q hq => if_neg (hall q hq)
          _ = db.progress_records := List.map_id _
      · simp [hkey]
    simp only [Database.record_module_completion, hf, hins, hf2]
    rw [if_pos (List.mem_singleton.mpr rfl)]
    rw [hmap]
  case some =>
    have hp : progressKey u c p = true := List.find?_some hf
    simp only [Database.record_module_completion, hf]
    set P := (if m ∈ p.completed_module_ids then p
      else { p with completed_module_ids := p.completed_module_ids ++ [m] })
      with hP
    have hkeyP : progressKey u c P = true := by
      by_cases hm : m ∈ p.completed_module_ids
      · rw [hP, if_pos hm]; exact hp
      · rw [hP, if_neg hm]
        simpa [progressKey] using hp
    have hmP : m ∈ P.completed_module_ids := by
      by_cases hm : m ∈ p.completed_module_ids
      · rw [hP, if_pos hm]; exact hm
      · rw [hP, if_neg hm]; simp
    have hff : ∀ q : UserProgress,
        progressKey u c (if progressKey u c q then P else q) =
        progressKey u c q := by
      intro q
      by_cases hq : progressKey u c q = true
      · rw [if_pos hq, hkeyP, hq]
      · rw [if_neg hq]
    have hfind2 : (db.progress_records.map
        fun q => if progressKey u c q then P else q).find? (progressKey u c) =
        some P := by
      rw [find?_map_of_pred _ _ _ hff, hf]
      simp only [Option.map_some']
      rw [if_pos hp]
    simp only [hfind2]
    rw [if_pos hmP]
    have hmap2 : (db.progress_records.map
        fun q => if progressKey u c q then P else q).map
        (fun q => if progressKey u c q then P else q) =
        db.progress_records.map fun q => if progressKey u c q then P else q := by
      rw [List.map_map]
      apply List.map_congr_left
      intro q _
      by_cases hq : progressKey u c q = true
      · simp only [Function.comp_apply, if_pos hq, if_pos hkeyP]
      · simp only [Function.comp_apply, if_neg hq]
    rw [hmap2]

/-- The scoring loop counts the matching positions and collects the ids of
correctly answered questions in question order. -/
theorem scoreLoop_spec (pairs : List (QuizQuestion × Int)) (s : Nat)
    (ids : List Nat) :
    scoreLoop pairs s ids =
      (s + pairs.countP (fun qa => qa.2 == qa.1.answer_index),
       ids ++ (pairs.filter (fun qa => qa.2 == qa.1.answer_index)).map
         fun qa => qa.1.id) := by
  induction pairs generalizing s ids with
  | nil => simp [scoreLoop]
  | cons qa rest ih =>
      obtain ⟨q, a⟩ := qa
      by_cases h : (a == q.answer_index) = true
      · rw [scoreLoop, if_pos h, ih, List.countP_cons, List.filter_cons, if_pos h]
        simp only [List.map_cons, List.append_assoc, List.singleton_append, h,
          if_pos, Prod.mk.injEq]
        exact ⟨by omega, trivial⟩
      · rw [scoreLoop, if_neg h, ih, List.countP_cons, List.filter_cons, if_neg h]
        simp [h]

/-- C7: whenever the course exists, has at least one question, and the
submitted answer list has the same length as the course's question list (in
store creation order), the quiz-attempt handler returns the score equal to
the number of positions where the submitted index equals the question's
`answer_index`, the total equal to the number of questions, and the ids of
the correctly answered questions in question order. -/
theorem attempt_quiz_scoring (db : Database) (course_id : Nat)
    (answers : List Int)
    (hc : db.courses.any (fun c => c.id == course_id) = true)
    (hq : db.quiz_questions.filter (fun q => q.course_id == course_id) ≠ [])
    (hl : answers.length =
      (db.quiz_questions.filter (fun q => q.course_id == course_id)).length) :
    attempt_quiz db course_id answers =
      .ok ⟨((db.quiz_questions.filter (fun q => q.course_id == course_id)).zip
              answers).countP (fun qa => qa.2 == qa.1.answer_index),
           (db.quiz_questions.filter (fun q => q.course_id == course_id)).length,
           (((db.quiz_questions.filter (fun q => q.course_id == course_id)).zip
              answers).filter (fun qa => qa.2 == qa.1.answer_index)).map
             fun qa => qa.1.id⟩ := by
  have hempty : (db.quiz_questions.filter
      (fun q => q.course_id == course_id)).isEmpty = false :=
    List.isEmpty_eq_false.mpr hq
  have hlen : (answers.length !=
      (db.quiz_questions.filter (fun q => q.course_id == course_id)).length) =
      false := by
    simp [hl]
  simp only [attempt_quiz, hc, if_true, hempty, Bool.false_eq_true, if_false,
    hlen, scoreLoop_spec, Nat.zero_add, List.nil_append]

/-- C7 witness: on the seeded store (questions 1 and 2 of course 1, with
`answer_index` 2 and 1), answers `[2, 1]` score 2 out of 2 with both ids
correct. -/
theorem attempt_quiz_scoring_witness :
    attempt_quiz Database.init 1 [2, 1] = .ok ⟨2, 2, [1, 2]⟩ :=
  (attempt_quiz_scoring Database.init 1 [2, 1] (by decide) (by decide)
    (by decide)).trans rfl

/-- C8: a quiz question whose `answer_index` is not a valid zero-based
index into its options is rejected before any store mutation — the whole
store, in particular the question collection and its counter, is returned
unchanged with a client error — while a valid `answer_index` on an existing
course with a schema-conforming option list is accepted: the question is
stored, the question counter increments, and the stored question is
returned. -/
theorem create_quiz_question_validation (db : Database) (course_id : Nat)
    (prompt : String) (options : List String) (answer_index : Int) :
    ((answer_index < 0 ∨ (options.length : Int) ≤ answer_index) →
       (create_quiz_question db course_id prompt options answer_index).1 = db ∧
       ∃ msg, (create_quiz_question db course_id prompt options answer_index).2 =
         .error msg) ∧
    (db.courses.any (fun c => c.id == course_id) = true →
     2 ≤ options.length →
     0 ≤ answer_index → answer_index < (options.length : Int) →
       (⟨db.question_counter + 1, course_id, prompt, options, answer_index⟩ :
           QuizQuestion) ∈
         (create_quiz_question db course_id prompt options answer_index).1.quiz_questions ∧
       (create_quiz_question db course_id prompt options answer_index).1.question_counter =
         db.question_counter + 1 ∧
       (create_quiz_question db course_id prompt options answer_index).2 =
         .ok ⟨db.question_counter + 1, course_id, prompt, options, answer_index⟩) := by
  constructor
  · intro hbad
    unfold create_quiz_question
    split
    · exact ⟨rfl, "payload validation failed", rfl⟩
    · split
      · exact ⟨rfl, "Course not found", rfl⟩
      · split
        · exact ⟨rfl, "answer_index out of range", rfl⟩
        · rename_i hv _ hr
          rw [not_not] at hv
          rcases hbad with hneg | hbig
          · exact absurd hv.2 (by omega)
          · exact absurd hbig hr
  · intro hc h2 h0 hlt
    have hv : ¬¬(2 ≤ options.length ∧ 0 ≤ answer_index) := not_not.mpr ⟨h2, h0⟩
    have hcs : ¬¬db.courses.any (fun c => c.id == course_id) = true := by
      simpa using hc
    have hr : ¬(options.length : Int) ≤ answer_index := by omega
    unfold create_quiz_question
    rw [if_neg hv, if_neg (by simpa using hc), if_neg hr]
    refine ⟨?_, rfl, rfl⟩
    exact mem_insertBy _ _ _

/-- C8 witness: on the seeded store, creating a question for course 1 with
options ["A", "B"] and `answer_index` 2 is rejected leaving the store
unchanged, while `answer_index` 1 is accepted, stored under the next id 3,
and bumps the question counter to 3. -/
theorem create_quiz_question_validation_witness :
    ((create_quiz_question Database.init 1 "P" ["A", "B"] 2).1 = Database.init ∧
     ∃ msg, (create_quiz_question Database.init 1 "P" ["A", "B"] 2).2 =
       .error msg) ∧
    ((⟨3, 1, "P", ["A", "B"], 1⟩ : QuizQuestion) ∈
       (create_quiz_question Database.init 1 "P" ["A", "B"] 1).1.quiz_questions ∧
     (create_quiz_question Database.init 1 "P" ["A", "B"] 1).1.question_counter = 3) :=
  ⟨(create_quiz_question_validation Database.init 1 "P" ["A", "B"] 2).1
      (Or.inr (by decide)),
   ((create_quiz_question_validation Database.init 1 "P" ["A", "B"] 1).2
      (by decide) (by decide) (by decide) (by decide)).1,
   ((create_quiz_question_validation Database.init 1 "P" ["A", "B"] 1).2
      (by decide) (by decide) (by decide) (by decide)).2.1⟩

end Kuizmo

namespace Kuizmo

/-- Every single store operation preserves duplicate-freedom of every
`completed_module_ids` list. -/
theorem progressNodup_apply (db : Database) (op : Op)
    (h : ∀ p ∈ db.progress_records, p.completed_module_ids.Nodup) :
    ∀ p ∈ (apply db op).progress_records, p.completed_module_ids.Nodup := by
  cases op with
  | createCourse t d tags => simpa only [apply, Database.create_course] using h
  | updateCourse cid t d tags => simpa only [apply, Database.update_course] using h
  | deleteCourse cid =>
      intro p hp
      simp only [apply, Database.delete_course, List.mem_filter] at hp
      exact h p hp.1
  | createModule cid t cnt => simpa only [apply, Database.create_module] using h
  | updateModule mid t cnt => simpa only [apply, Database.update_module] using h
  | deleteModule mid =>
      rcases hf : db.modules.find? (fun m => m.id == mid) with _ | mm
      · simpa only [apply, Database.delete_module, hf] using h
      · intro p hp
        simp only [apply, Database.delete_module, hf, List.mem_map] at hp
        obtain ⟨q, hq, rfl⟩ := hp
        by_cases hm : mid ∈ q.completed_module_ids
        · simpa only [if_pos hm] using (h q hq).erase mid
        · simpa only [if_neg hm] using h q hq
  | createQuestion cid pr o a =>
      simpa only [apply, Database.create_quiz_question] using h
  | updateQuestion qid pr o a =>
      simpa only [apply, Database.update_quiz_question] using h
  | deleteQuestion qid =>
      simpa only [apply, Database.delete_quiz_question] using h
  | recordCompletion u c m =>
      rcases hf : db.progress_records.find? (progressKey u c) with _ | p0
      · intro p hp
        have hany : db.progress_records.any (progressKey u c) = false :=
          List.any_eq_false.mpr (List.find?_eq_none.mp hf)
        simp only [apply, Database.record_module_completion, hf,
          insertBy_of_any_eq_false _ _ _ hany, List.mem_append,
          List.mem_singleton] at hp
        rcases hp with hp | rfl
        · exact h p hp
        · simp
      · intro p hp
        have h0 := h p0 (List.mem_of_find?_eq_some hf)
        simp only [apply, Database.record_module_completion, hf,
          List.mem_map] at hp
        obtain ⟨q, hq, rfl⟩ := hp
        by_cases hk : progressKey u c q = true
        · rw [if_pos hk]
          by_cases hm : m ∈ p0.completed_module_ids
          · simpa only [if_pos hm] using h0
          · rw [if_neg hm]
            simp only [List.nodup_append, List.nodup_cons,
              List.not_mem_nil, not_false_iff, List.nodup_nil, and_true,
              true_and]
            exact ⟨h0, fun a ha => by
              simp only [List.mem_singleton]
              exact fun hae => hm (hae ▸ ha)⟩
        · rw [if_neg hk]
          exact h q hq
  | getProgress u c =>
      rcases hf : db.progress_records.find? (progressKey u c) with _ | p0
      · intro p hp
        have hany : db.progress_records.any (progressKey u c) = false :=
          List.any_eq_false.mpr (List.find?_eq_none.mp hf)
        simp only [apply, Database.get_progress, hf,
          insertBy_of_any_eq_false _ _ _ hany, List.mem_append,
          List.mem_singleton] at hp
        rcases hp with hp | rfl
        · exact h p hp
        · simp
      · simpa only [apply, Database.get_progress, hf] using h

/-- Duplicate-freedom of the progress lists is preserved along any sequence
of store operations. -/
theorem progressNodup_foldl (ops : List Op) (db : Database)
    (h : ∀ p ∈ db.progress_records, p.completed_module_ids.Nodup) :
    ∀ p ∈ (ops.foldl apply db).progress_records,
      p.completed_module_ids.Nodup := by
  induction ops generalizing db with
  | nil => simpa using h
  | cons op ops ih => exact ih (apply db op) (progressNodup_apply db op h)

/-- C9 counterexample: completed ids are not kept in the order modules were
first recorded.  From the seeded store, record modules 1 then 2 for user
"u", delete module 1 (which erases it from the progress list), then record
module 1 again: the final list is `[2, 1]`, though module 1 was first
recorded before module 2 (first-recorded order would be `[1, 2]`). -/
theorem progress_first_record_order_counterexample :
    (reachable [Op.recordCompletion "u" 1 1, Op.recordCompletion "u" 1 2,
        Op.deleteModule 1, Op.recordCompletion "u" 1 1]).progress_records =
      [⟨"u", 1, [2, 1]⟩] ∧
    ([2, 1] : List Nat) ≠ [1, 2] := by
  exact ⟨by decide, by decide⟩

/-- C9 amended: in every store state reachable from the seeded initial
store, every `completed_module_ids` list is duplicate-free, and every store
operation maintains insertion order: recording a completion either leaves a
record unchanged, creates the record `[m]`, or appends the new id `m` at
the tail of an existing record, and deleting a module only erases ids,
keeping the surviving ids in their relative order (a sublist).  Ids appear
in the order of their most recent recording — not necessarily of their
first recording, as re-recording after a module deletion appends at the
end. -/
theorem progress_invariant (ops : List Op) :
    (∀ p ∈ (reachable ops).progress_records,
       p.completed_module_ids.Nodup) ∧
    (∀ (db : Database) (u : String) (c m : Nat),
       ∀ p' ∈ (db.record_module_completion u c m).1.progress_records,
         p' ∈ db.progress_records ∨
         p'.completed_module_ids = [m] ∨
         ∃ p ∈ db.progress_records,
           m ∉ p.completed_module_ids ∧
           p'.completed_module_ids = p.completed_module_ids ++ [m]) ∧
    (∀ (db : Database) (mid : Nat),
       ∀ p' ∈ (db.delete_module mid).progress_records,
         ∃ p ∈ db.progress_records,
           p'.completed_module_ids.Sublist p.completed_module_ids) := by
  refine ⟨progressNodup_foldl ops Database.init (by decide), ?_, ?_⟩
  · intro db u c m p' hp'
    rcases hf : db.progress_records.find? (progressKey u c) with _ | p0
    · have hany : db.progress_records.any (progressKey u c) = false :=
        List.any_eq_false.mpr (List.find?_eq_none.mp hf)
      simp only [Database.record_module_completion, hf,
        insertBy_of_any_eq_false _ _ _ hany, List.mem_append,
        List.mem_singleton] at hp'
      rcases hp' with hp' | rfl
      · exact Or.inl hp'
      · exact Or.inr (Or.inl rfl)
    · have hmem0 := List.mem_of_find?_eq_some hf
      simp only [Database.record_module_completion, hf, List.mem_map] at hp'
      obtain ⟨q, hq, rfl⟩ := hp'
      by_cases hk : progressKey u c q = true
      · rw [if_pos hk]
        by_cases hm : m ∈ p0.completed_module_ids
        · rw [if_pos hm]; exact Or.inl hmem0
        · rw [if_neg hm]
          exact Or.inr (Or.inr ⟨p0, hmem0, hm, rfl⟩)
      · rw [if_neg hk]; exact Or.inl hq
  · intro db mid p' hp'
    rcases hf : db.modules.find? (fun m => m.id == mid) with _ | mm
    · simp only [Database.delete_module, hf] at hp'
      exact ⟨p', hp', List.Sublist.refl _⟩
    · simp only [Database.delete_module, hf, List.mem_map] at hp'
      obtain ⟨q, hq, rfl⟩ := hp'
      by_cases hm : mid ∈ q.completed_module_ids
      · rw [if_pos hm]
        exact ⟨q, hq, List.erase_sublist _ _⟩
      · rw [if_neg hm]
        exact ⟨q, hq, List.Sublist.refl _⟩

/-- C9 witness: applying the invariant to the counterexample trace shows
the concrete final list `[2, 1]` is duplicate-free. -/
theorem progress_invariant_witness : ([2, 1] : List Nat).Nodup :=
  (progress_invariant [Op.recordCompletion "u" 1 1,
      Op.recordCompletion "u" 1 2, Op.deleteModule 1,
      Op.recordCompletion "u" 1 1]).1 ⟨"u", 1, [2, 1]⟩ (by decide)

end Kuizmo
